import Mathlib

/-!
Shallow embedding of the anigamer-tw-updates-bot update pipeline
(src/main.js, together with the variant files src/unnamed/part_001 and
src/unnamed/part_002 where their behaviour differs from main.js).

The effectful parts of the source are made explicit:
* the persisted snapshot file `./data.json` is a value of type
  `Option (List Anime)` (`none` = file missing or unreadable/unparseable,
  `some l` = parsed contents);
* the outcome of `bot.sendMessage` for an item is given by a predicate
  `ok : Anime → Bool` (true = the send resolves, false = it rejects);
* `fs.writeFile` success is a Boolean injection where persist failures
  matter (`CycleInput.writeOk`).
-/

/-- One entry scraped from the site (main.js `@typedef Anime`): five string
fields, filled in the order title, link, content, image, time. -/
structure Anime where
  title : String
  link : String
  content : String
  image : String
  time : String
deriving DecidableEq

/-- Fingerprint of an `Anime` (main.js `hash`). The source computes
`sha256(JSON.stringify(object))`; the embedding uses the canonical JSON
serialization itself as the digest — a collision-free stand-in for the
cryptographic hash (escaping of embedded quotes is elided). The source only
ever compares digests for equality. -/
def hash (object : Anime) : String :=
  "\x7b\x22title\x22:\x22" ++ object.title ++ "\x22,\x22link\x22:\x22" ++ object.link ++
    "\x22,\x22content\x22:\x22" ++ object.content ++ "\x22,\x22image\x22:\x22" ++ object.image ++
    "\x22,\x22time\x22:\x22" ++ object.time ++ "\x22\x7d"

/-- Loop of main.js `checkAnimeUpdates` (lines 118-124): walk `data` in order,
push while the item's hash is absent from `prevDataHashList`, `break` at the
first hit. -/
def detectLoop (prevDataHashList : List String) : List Anime → List Anime
  | [] => []
  | item :: rest =>
    if prevDataHashList.contains (hash item) then []
    else item :: detectLoop prevDataHashList rest

/-- main.js `checkAnimeUpdates`: when the data file is missing (`isFileExist`
is false) or unreadable/unparseable (`JSON.parse` throws), the `catch` logs
and the function returns the still-empty `newUpdates`; otherwise it compares
the fetched items against the previous hash list. part_001 `checkAnimeUpdates`
is identical up to renaming. -/
def checkAnimeUpdates (store : Option (List Anime)) (data : List Anime) : List Anime :=
  match store with
  | none => []
  | some prevData => detectLoop (prevData.map hash) data

/-- The `while (updates.length) { item = updates.pop(); await bot.sendMessage(...) }`
loop shared by main.js and part_001 `sendAnimeUpdates`, run over the reversed
array (popping the last element of a newest-first array walks it oldest-first).
Components of the result: the items whose send was attempted, in send order;
the final contents of the `updates` array (newest-first; after a failure the
failed item has been pushed back); and whether a send threw. -/
def sendRun (ok : Anime → Bool) : List Anime → List Anime × List Anime × Bool
  | [] => ([], [], false)
  | item :: rest =>
    if ok item then
      let r := sendRun ok rest
      (item :: r.1, r.2.1, r.2.2)
    else
      ([item], (item :: rest).reverse, true)

/-- main.js `sendAnimeUpdates` (lines 137-152): sends oldest-first; on a send
failure it pushes the failed item back into the array and rethrows
(`Except.error` carries the array contents at the throw); on full success it
returns the emptied array. -/
def sendAnimeUpdates (ok : Anime → Bool) (updates : List Anime) :
    Except (List Anime) (List Anime) :=
  let r := sendRun ok updates.reverse
  if r.2.2 then Except.error r.2.1 else Except.ok r.2.1

/-- One `unsentUpdates.forEach` step of main.js `saveAnimeData` (= part_001
`saveAnimes`): `findIndex` of the first item with the same hash, and `splice`
it out when found (`index !== -1`). -/
def removeFirstByHash : List Anime → Anime → List Anime
  | [], _ => []
  | item :: rest, update =>
    if hash item == hash update then rest
    else item :: removeFirstByHash rest update

/-- main.js `saveAnimeData` (lines 159-171; part_001 `saveAnimes`): remove each
unsent update from `data` by fingerprint, then write the file only when the
remaining list is non-empty (`data.length > 0`); `store` is the file contents
before the call, returned unchanged when the write is skipped. -/
def saveAnimeData (store : Option (List Anime)) (data unsentUpdates : List Anime) :
    Option (List Anime) :=
  let d := unsentUpdates.foldl removeFirstByHash data
  if 0 < d.length then some d else store

/-- Observable outcome of one cycle: the detected updates, the sends attempted
in send order, and the data file afterwards. -/
structure CycleResult where
  updates : List Anime
  attempted : List Anime
  store : Option (List Anime)
deriving DecidableEq

/-- Body of main.js `schedule` (lines 176-187) after `fetchAnimeData` resolved
with `data` (`fetchAnimeData` catches its own errors and resolves with a
possibly-empty array, so the fetch step never throws into `schedule`): detect,
send, and save — unless the send threw, in which case `schedule`'s `catch`
swallows the error before `saveAnimeData` is reached and the file is left
unchanged. -/
def runCycle (ok : Anime → Bool) (store : Option (List Anime)) (data : List Anime) :
    CycleResult :=
  let updates := checkAnimeUpdates store data
  let r := sendRun ok updates.reverse
  { updates := updates
    attempted := r.1
    store := if r.2.2 then store else saveAnimeData store data r.2.1 }

namespace P1

/-- part_001 `sendAnimeUpdates`: the same pop/send loop, but its `catch` only
logs — the function always returns the `updates` array (the unsent items,
newest-first, with a failed item pushed back; empty on full success). -/
def sendAnimeUpdates (ok : Anime → Bool) (updates : List Anime) : List Anime :=
  (sendRun ok updates.reverse).2.1

/-- Body of part_001 `schedule` after `fetchAnimes`: since its
`sendAnimeUpdates` never throws, `saveAnimes` always runs, fed the returned
unsent items. -/
def runCycle (ok : Anime → Bool) (store : Option (List Anime)) (data : List Anime) :
    CycleResult :=
  let updates := checkAnimeUpdates store data
  let r := sendRun ok updates.reverse
  { updates := updates
    attempted := r.1
    store := saveAnimeData store data r.2.1 }

end P1

namespace P2

/-- part_002 `checkNewUpdates`: no early exit — it keeps every fetched item
whose hash is absent from the previous list. It has no internal try/catch
(a missing file makes `readFileSync` throw to `main`); the caller matches on
the store before reaching this comparison. -/
def checkNewUpdates (prevData data : List Anime) : List Anime :=
  data.filter (fun item => !((prevData.map hash).contains (hash item)))

/-- part_002 `main(scheduled)` (lines 92-111): on the immediate start-up run
(`scheduled = false`, invoked as `main(false)` at line 103) it fetches and
writes the file without detecting or sending anything; on scheduled runs it
detects, sends oldest-first (a send failure throws to `main`'s catch, skipping
the write, as does a missing snapshot file), then writes the full fetched
list. Returns the attempted sends (in send order) and the file afterwards. -/
def main (scheduled : Bool) (ok : Anime → Bool) (store : Option (List Anime))
    (data : List Anime) : List Anime × Option (List Anime) :=
  if scheduled then
    match store with
    | none => ([], none)
    | some prevData =>
      let r := sendRun ok (checkNewUpdates prevData data).reverse
      if r.2.2 then (r.1, some prevData) else (r.1, some data)
  else ([], some data)

end P2

/-- Failure injections and fetch result for one scheduled main.js cycle. -/
structure CycleInput where
  data : List Anime
  ok : Anime → Bool
  writeOk : Bool

/-- Taxonomy of the exceptions that can reach the catch of main.js `schedule`:
a `bot.sendMessage` rejection rethrown by `sendAnimeUpdates`, or an
`fs.writeFile` rejection inside `saveAnimeData` (`fetchAnimeData` and
`checkAnimeUpdates` catch their own errors internally and return arrays). -/
inductive CycleError
  | sendErr
  | persistErr
deriving DecidableEq

/-- main.js `saveAnimeData` with the `fs.writeFile` outcome made explicit: the
write only happens on a non-empty list, and a failed write rejects. -/
def saveAnimeDataE (writeOk : Bool) (store : Option (List Anime))
    (data unsentUpdates : List Anime) : Except CycleError (Option (List Anime)) :=
  let d := unsentUpdates.foldl removeFirstByHash data
  if 0 < d.length then
    if writeOk then Except.ok (some d) else Except.error CycleError.persistErr
  else Except.ok store

/-- The `try` block of main.js `schedule`, after the fetch: any throw from the
send step or the persist step escapes to the cycle boundary as an error. -/
def scheduleE (inp : CycleInput) (store : Option (List Anime)) :
    Except CycleError (Option (List Anime)) :=
  let updates := checkAnimeUpdates store inp.data
  let r := sendRun inp.ok updates.reverse
  if r.2.2 then Except.error CycleError.sendErr
  else saveAnimeDataE inp.writeOk store inp.data r.2.1

/-- main.js `schedule` (lines 176-187): the surrounding try/catch logs any
in-cycle error and returns normally, leaving the data file as it was. -/
def schedule (inp : CycleInput) (store : Option (List Anime)) : Option (List Anime) :=
  match scheduleE inp store with
  | Except.ok s => s
  | Except.error _ => store

/-- The cron loop of main.js line 194: each firing runs `schedule` on the file
state left by the previous cycle; the trace records the file state after each
cycle, one entry per firing. -/
def runProcess (store : Option (List Anime)) : List CycleInput → List (Option (List Anime))
  | [] => []
  | inp :: rest => schedule inp store :: runProcess (schedule inp store) rest

/-- Reconciliation as worded by the spec (§4.4): `toPersist = fetched minus
unsentItems`, a set-difference by Fingerprint that keeps the fetched order.
Stated from the spec's words, for comparison with `saveAnimeData`. -/
def persistSpec (data unsentUpdates : List Anime) : List Anime :=
  data.filter (fun item => !((unsentUpdates.map hash).contains (hash item)))

/-- Concrete item used by witnesses and counterexamples. -/
def animeA : Anime := { title := "A", link := "lA", content := "cA", image := "iA", time := "tA" }

/-- Concrete item used by witnesses and counterexamples. -/
def animeB : Anime := { title := "B", link := "lB", content := "cB", image := "iB", time := "tB" }

/-- Concrete item used by witnesses and counterexamples. -/
def animeC : Anime := { title := "C", link := "lC", content := "cC", image := "iC", time := "tC" }

/-- Send outcome where every send succeeds. -/
def okT : Anime → Bool := fun _ => true

/-- Send outcome where every send fails. -/
def okF : Anime → Bool := fun _ => false

/-- Send outcome where sending the item titled B fails and everything else
succeeds. -/
def okW : Anime → Bool := fun a => !(a.title == "B")

/-- Membership gives a positive `contains` test. -/
theorem contains_of_mem {a : String} {l : List String} (h : a ∈ l) : l.contains a = true :=
  List.elem_iff.mpr h

/-- Unfolding equation of `detectLoop` on a cons cell. -/
theorem detectLoop_cons (H : List String) (item : Anime) (rest : List Anime) :
    detectLoop H (item :: rest) =
      if H.contains (hash item) then [] else item :: detectLoop H rest := rfl

/-- Characterization of the detection loop: every returned item is absent from
the previous hash list, and the walk either consumes all of `data` or stops
exactly at the first item whose hash is present. -/
theorem detectLoop_spec (H : List String) (data : List Anime) :
    (∀ a ∈ detectLoop H data, H.contains (hash a) = false)
    ∧ (detectLoop H data = data ∨
        ∃ x rest, data = detectLoop H data ++ x :: rest ∧ H.contains (hash x) = true) := by
  induction data with
  | nil =>
    refine ⟨?_, Or.inl rfl⟩
    intro a ha
    cases ha
  | cons item rest ih =>
    by_cases hc : H.contains (hash item) = true
    · have e0 : detectLoop H (item :: rest) = [] := by rw [detectLoop_cons, if_pos hc]
      refine ⟨?_, Or.inr ⟨item, rest, by rw [e0]; rfl, hc⟩⟩
      intro a ha
      rw [e0] at ha
      cases ha
    · have hc' : ¬(H.contains (hash item) = true) := hc
      have e0 : detectLoop H (item :: rest) = item :: detectLoop H rest := by
        rw [detectLoop_cons, if_neg hc']
      constructor
      · intro a ha
        rw [e0] at ha
        rcases List.mem_cons.mp ha with rfl | ha
        · exact Bool.eq_false_iff.mpr hc'
        · exact ih.1 a ha
      · rcases ih.2 with h | ⟨x, t, e, hx⟩
        · exact Or.inl (by rw [e0, h])
        · exact Or.inr ⟨x, t, by rw [e0, List.cons_append, ← e], hx⟩

/-- Claim C1: for every fetched list (newest-first) and every readable previous
snapshot, `checkAnimeUpdates` returns exactly the longest head segment of the
fetched list whose items' fingerprints are absent from the previous snapshot's
fingerprint set, preserving the fetched order (the result is an initial
segment of `data`), and the walk stops at the first item whose fingerprint is
found in the previous set: either the whole list is returned, or `data` splits
as the result followed by a first item with a matching fingerprint. The empty
fetched list yields the empty result as a special case of the first disjunct. -/
theorem checkAnimeUpdates_detect_spec (prevData data : List Anime) :
    (∀ a ∈ checkAnimeUpdates (some prevData) data,
        (prevData.map hash).contains (hash a) = false)
    ∧ (checkAnimeUpdates (some prevData) data = data ∨
        ∃ x rest, data = checkAnimeUpdates (some prevData) data ++ x :: rest ∧
          (prevData.map hash).contains (hash x) = true) :=
  detectLoop_spec (prevData.map hash) data

/-- Witness for C1: on a concrete run the detector's first returned item indeed
has a fingerprint absent from the previous snapshot. -/
theorem checkAnimeUpdates_detect_spec_witness :
    ([animeB].map hash).contains (hash animeA) = false :=
  (checkAnimeUpdates_detect_spec [animeB] [animeA, animeB, animeC]).1 animeA (by decide)

/-- Claim C4, counterexample: with the previous snapshot absent (or
unparseable), `checkAnimeUpdates` does not return the entire fetched list —
its catch block returns the still-empty update list instead. -/
theorem checkAnimeUpdates_none_cex :
    checkAnimeUpdates none [animeA] = []
    ∧ checkAnimeUpdates none [animeA] ≠ [animeA] := by
  exact ⟨rfl, by decide⟩

/-- Claim C4, amended: when the previous snapshot is absent (first run) or
unreadable/unparseable, `checkAnimeUpdates` treats no fetched item as new and
returns the empty list (the thrown error is caught and the empty `newUpdates`
is returned); the fetched list is then seeded into the snapshot by the
subsequent save step rather than being re-reported as updates. -/
theorem checkAnimeUpdates_none_empty (data : List Anime) :
    checkAnimeUpdates none data = [] := rfl

/-- Unfolding equation of `sendRun` on a cons cell. -/
theorem sendRun_cons (ok : Anime → Bool) (item : Anime) (rest : List Anime) :
    sendRun ok (item :: rest) =
      if ok item then
        ((sendRun ok rest).1.cons item, (sendRun ok rest).2.1, (sendRun ok rest).2.2)
      else ([item], (item :: rest).reverse, true) := rfl

/-- When every queued send succeeds, the loop attempts every item in queue
order, empties the array, and no send throws. -/
theorem sendRun_all_ok (ok : Anime → Bool) :
    ∀ l : List Anime, (∀ a ∈ l, ok a = true) → sendRun ok l = (l, [], false)
  | [], _ => rfl
  | item :: rest, h => by
    have hi : ok item = true := h item (List.mem_cons_self item rest)
    have ht := sendRun_all_ok ok rest (fun a ha => h a (List.mem_cons_of_mem item ha))
    rw [sendRun_cons, if_pos hi, ht]

/-- When the queue splits as successful sends, then a failing item, the loop
attempts exactly the successful ones followed by the failing one, the array
ends as the failing item and the untried tail pushed back (reversed), and the
loop throws. -/
theorem sendRun_fail (ok : Anime → Bool) :
    ∀ (pre : List Anime) (X : Anime) (post : List Anime),
      (∀ a ∈ pre, ok a = true) → ok X = false →
      sendRun ok (pre ++ X :: post) = (pre ++ [X], (X :: post).reverse, true)
  | [], X, post, _, hX => by
    rw [List.nil_append, sendRun_cons, if_neg (by rw [hX]; exact Bool.false_ne_true)]
    rfl
  | item :: pre, X, post, h, hX => by
    have hi : ok item = true := h item (List.mem_cons_self item pre)
    have ht := sendRun_fail ok pre X post (fun a ha => h a (List.mem_cons_of_mem item ha)) hX
    rw [List.cons_append, sendRun_cons, if_pos hi, ht]
    rfl

/-- A throwing run of the send loop decomposes the queue into successfully
sent items, the failing item, and the untried tail. -/
theorem sendRun_fail_parts (ok : Anime → Bool) :
    ∀ l : List Anime, (sendRun ok l).2.2 = true →
      ∃ pre X post, l = pre ++ X :: post ∧ (∀ a ∈ pre, ok a = true) ∧ ok X = false
  | [], h => by cases h
  | item :: rest, h => by
    by_cases hi : ok item = true
    · have h' : (sendRun ok rest).2.2 = true := by
        rw [sendRun_cons, if_pos hi] at h
        exact h
      obtain ⟨pre, X, post, e, hp, hX⟩ := sendRun_fail_parts ok rest h'
      refine ⟨item :: pre, X, post, by rw [List.cons_append, e], ?_, hX⟩
      intro a ha
      rcases List.mem_cons.mp ha with rfl | ha
      · exact hi
      · exact hp a ha
    · refine ⟨[], item, rest, rfl, ?_, Bool.eq_false_iff.mpr hi⟩
      intro a ha
      cases ha

/-- Claim C2: for every updates list (newest-first), the delivery loop of
part_001 `sendAnimeUpdates` attempts items one at a time in oldest-first order
(`updates.reverse`); if every send succeeds the attempts are exactly
`updates.reverse` and the function returns the empty list; if the send of some
item X fails after the older items `pre` all succeeded, the attempts stop at X
(nothing beyond X is tried) and the function returns X together with every
not-yet-attempted item, re-expressed in newest-first order. -/
theorem sendAnimeUpdates_order_and_failure (ok : Anime → Bool) (updates : List Anime) :
    ((∀ a ∈ updates, ok a = true) →
        (sendRun ok updates.reverse).1 = updates.reverse
        ∧ P1.sendAnimeUpdates ok updates = [])
    ∧ (∀ pre X post, updates.reverse = pre ++ X :: post →
        (∀ a ∈ pre, ok a = true) → ok X = false →
        (sendRun ok updates.reverse).1 = pre ++ [X]
        ∧ P1.sendAnimeUpdates ok updates = post.reverse ++ [X]) := by
  constructor
  · intro h
    have hs := sendRun_all_ok ok updates.reverse (fun a ha => h a (List.mem_reverse.mp ha))
    rw [P1.sendAnimeUpdates, hs]
    exact ⟨rfl, rfl⟩
  · intro pre X post e hp hX
    have hs := sendRun_fail ok pre X post hp hX
    rw [P1.sendAnimeUpdates, e, hs]
    exact ⟨rfl, List.reverse_cons X post⟩

/-- Witness for C2: a concrete failing delivery. With updates = [B, A]
(newest-first), A is sent first; the send of B fails; the function returns
[B]. -/
theorem sendAnimeUpdates_order_and_failure_witness :
    P1.sendAnimeUpdates okW [animeB, animeA] = [animeB] := by
  have h := (sendAnimeUpdates_order_and_failure okW [animeB, animeA]).2 [animeA] animeB []
    (by decide) (by decide) (by decide)
  simpa using h.2

/-- Removing unsent items from an empty list leaves it empty. -/
theorem foldl_removeFirstByHash_nil :
    ∀ unsentUpdates : List Anime, unsentUpdates.foldl removeFirstByHash [] = []
  | [] => rfl
  | _ :: us => foldl_removeFirstByHash_nil us

/-- Claim C5: a cycle whose fetched list is empty performs no save — the file
is left exactly as it was, both through the whole main.js cycle and through a
direct `saveAnimeData` call on an empty item list. -/
theorem empty_fetch_no_save (ok : Anime → Bool) (store : Option (List Anime))
    (unsentUpdates : List Anime) :
    (runCycle ok store []).store = store
    ∧ saveAnimeData store [] unsentUpdates = store := by
  have h1 : saveAnimeData store [] unsentUpdates = store := by
    rw [saveAnimeData, foldl_removeFirstByHash_nil]
    rfl
  refine ⟨?_, h1⟩
  cases store with
  | none => rfl
  | some prevData => rfl

/-- Unfolding equation of `removeFirstByHash` on a cons cell. -/
theorem removeFirstByHash_cons (item : Anime) (rest : List Anime) (update : Anime) :
    removeFirstByHash (item :: rest) update =
      if hash item == hash update then rest
      else item :: removeFirstByHash rest update := rfl

/-- When the fingerprints of `data` are pairwise distinct, splicing out the
first item matching `u`'s fingerprint is the same as filtering out every item
matching `u`'s fingerprint. -/
theorem removeFirstByHash_eq_filter (u : Anime) :
    ∀ data : List Anime, (data.map hash).Nodup →
      removeFirstByHash data u = data.filter (fun x => !(hash x == hash u))
  | [], _ => rfl
  | item :: rest, h => by
    have h' : hash item ∉ rest.map hash ∧ (rest.map hash).Nodup := by
      rw [List.map_cons, List.nodup_cons] at h
      exact h
    by_cases he : (hash item == hash u) = true
    · have heq : hash item = hash u := beq_iff_eq.mp he
      have hrest : rest.filter (fun x => !(hash x == hash u)) = rest := by
        refine List.filter_eq_self.mpr ?_
        intro x hx
        have hne : hash x ≠ hash u := by
          intro hcontra
          exact h'.1 (heq ▸ hcontra ▸ List.mem_map_of_mem hash hx)
        simp [hne]
      rw [removeFirstByHash_cons, if_pos he,
        List.filter_cons_of_neg (by simp [he]), hrest]
    · have hf : (hash item == hash u) = false := Bool.eq_false_iff.mpr he
      rw [removeFirstByHash_cons, if_neg he,
        List.filter_cons_of_pos (by simp [hf]),
        removeFirstByHash_eq_filter u rest h'.2]

/-- When the fingerprints of `data` are pairwise distinct, the
`unsentUpdates.forEach` splice loop of `saveAnimeData` computes exactly the
spec's fingerprint set-difference `persistSpec`. -/
theorem foldl_removeFirstByHash_eq_filter :
    ∀ (unsentUpdates data : List Anime), (data.map hash).Nodup →
      unsentUpdates.foldl removeFirstByHash data = persistSpec data unsentUpdates
  | [], data, _ => by
    rw [List.foldl_nil, persistSpec]
    exact (List.filter_eq_self.mpr (fun a _ => rfl)).symm
  | u :: us, data, h => by
    have hsub : ((data.filter (fun x => !(hash x == hash u))).map hash).Nodup :=
      List.Nodup.sublist (List.Sublist.map hash (List.filter_sublist data)) h
    rw [List.foldl_cons]
    have e1 : removeFirstByHash data u = data.filter (fun x => !(hash x == hash u)) :=
      removeFirstByHash_eq_filter u data h
    rw [e1, foldl_removeFirstByHash_eq_filter us _ hsub, persistSpec, persistSpec,
      List.filter_filter]
    refine List.filter_congr ?_
    intro a _
    rw [List.map_cons, List.contains_cons, Bool.not_or, Bool.and_comm]

/-- Claim C3, counterexample: reconciliation is not a fingerprint
set-difference when the fetched list repeats a fingerprint. In a part_001
cycle with previous snapshot [C] and fetched list [A, B, A] where the send of
B fails, the unsent items are [A, B], yet the persisted snapshot is [A]
(the splice loop removes only the first fingerprint match per unsent item),
while the spec's set-difference of the fetched list minus the unsent items is
empty — so nothing (or the old snapshot) should have survived under the
claim. -/
theorem saveAnimeData_setDiff_cex :
    (P1.runCycle okW (some [animeC]) [animeA, animeB, animeA]).store = some [animeA]
    ∧ (sendRun okW (checkAnimeUpdates (some [animeC]) [animeA, animeB, animeA]).reverse).2.1
        = [animeA, animeB]
    ∧ persistSpec [animeA, animeB, animeA] [animeA, animeB] = [] :=
  ⟨rfl, rfl, rfl⟩

/-- Claim C3, amended: the reconciliation step removes, for each unsent item,
the first fetched item with an equal fingerprint; whenever the fetched list's
fingerprints are pairwise distinct (the normal case), this persists exactly
the fetched list minus the unsent items as a fingerprint set-difference, with
the surviving items keeping the fetched list's order (and the write is skipped
when nothing survives). -/
theorem saveAnimeData_filter_spec (store : Option (List Anime))
    (data unsentUpdates : List Anime) (h : (data.map hash).Nodup) :
    saveAnimeData store data unsentUpdates =
      if 0 < (persistSpec data unsentUpdates).length
      then some (persistSpec data unsentUpdates)
      else store := by
  simp only [saveAnimeData]
  rw [foldl_removeFirstByHash_eq_filter unsentUpdates data h]

/-- Witness for the amended C3: a concrete reconciliation where the item that
failed to send is excluded from the persisted snapshot. -/
theorem saveAnimeData_filter_spec_witness :
    saveAnimeData none [animeA, animeB] [animeB] = some [animeA] := by
  rw [saveAnimeData_filter_spec none [animeA, animeB] [animeB] (by decide)]
  rfl

/-- Projection equation for `runCycle`: the detected updates of a cycle. -/
theorem runCycle_updates (ok : Anime → Bool) (store : Option (List Anime)) (data : List Anime) :
    (runCycle ok store data).updates = checkAnimeUpdates store data := rfl

/-- Projection equation for `runCycle`: the attempted sends of a cycle. -/
theorem runCycle_attempted (ok : Anime → Bool) (store : Option (List Anime)) (data : List Anime) :
    (runCycle ok store data).attempted =
      (sendRun ok (checkAnimeUpdates store data).reverse).1 := rfl

/-- Projection equation for `runCycle`: the file state after a cycle. -/
theorem runCycle_store (ok : Anime → Bool) (store : Option (List Anime)) (data : List Anime) :
    (runCycle ok store data).store =
      if (sendRun ok (checkAnimeUpdates store data).reverse).2.2 then store
      else saveAnimeData store data (sendRun ok (checkAnimeUpdates store data).reverse).2.1 := rfl

/-- Unfolding equation for `checkAnimeUpdates` on a readable snapshot. -/
theorem checkAnimeUpdates_some (prevData data : List Anime) :
    checkAnimeUpdates (some prevData) data = detectLoop (prevData.map hash) data := rfl

/-- Claim C7: running a main.js cycle twice against an unchanged source (the
identical fetched list both times), with every send of the first cycle
succeeding, yields zero new-item detections and zero send attempts on the
second run. -/
theorem cycle_idempotent (ok : Anime → Bool) (store : Option (List Anime)) (data : List Anime)
    (h : ∀ a ∈ checkAnimeUpdates store data, ok a = true) :
    (runCycle ok (runCycle ok store data).store data).updates = []
    ∧ (runCycle ok (runCycle ok store data).store data).attempted = [] := by
  have hall : ∀ a ∈ (checkAnimeUpdates store data).reverse, ok a = true :=
    fun a ha => h a (List.mem_reverse.mp ha)
  have hsr := sendRun_all_ok ok (checkAnimeUpdates store data).reverse hall
  have hstore : (runCycle ok store data).store = saveAnimeData store data [] := by
    rw [runCycle_store, hsr]
    rfl
  cases data with
  | nil =>
    have hstore0 : (runCycle ok store []).store = store := by
      rw [hstore]
      rfl
    rw [hstore0, runCycle_updates, runCycle_attempted]
    cases store with
    | none => exact ⟨rfl, rfl⟩
    | some prevData => exact ⟨rfl, rfl⟩
  | cons d t =>
    have hstore1 : (runCycle ok store (d :: t)).store = some (d :: t) := by
      rw [hstore]
      simp [saveAnimeData]
    have hc : ((d :: t).map (hash : Anime → String)).contains (hash d) = true :=
      contains_of_mem (List.mem_map_of_mem (hash : Anime → String) (List.mem_cons_self d t))
    have e1 : checkAnimeUpdates (some (d :: t)) (d :: t) = [] := by
      rw [checkAnimeUpdates_some, detectLoop_cons, if_pos hc]
    rw [hstore1, runCycle_updates, runCycle_attempted, e1]
    exact ⟨rfl, rfl⟩

/-- Witness for C7: a concrete first cycle (previous snapshot [B], fetch [A],
all sends succeed) followed by a second cycle over the same fetch detects and
sends nothing. -/
theorem cycle_idempotent_witness :
    (runCycle okT (runCycle okT (some [animeB]) [animeA]).store [animeA]).updates = []
    ∧ (runCycle okT (runCycle okT (some [animeB]) [animeA]).store [animeA]).attempted = [] :=
  cycle_idempotent okT (some [animeB]) [animeA] (by decide)

/-- A missing or unreadable snapshot makes the detector return no updates. -/
theorem checkAnimeUpdates_missing (data : List Anime) :
    checkAnimeUpdates none data = [] := rfl

/-- Claim C8, counterexample: the immediate run at process start
(`runOnInit: true` runs main.js `schedule` before any scheduled trigger) does
perform delivery when a previous snapshot exists — with snapshot [B] and fetch
[A, B], the immediate cycle sends A. -/
theorem immediate_run_delivers_cex :
    (runCycle okT (some [animeB]) [animeA, animeB]).attempted = [animeA]
    ∧ ([animeA] : List Anime) ≠ [] :=
  ⟨rfl, by decide⟩

/-- Claim C8, amended: an immediate run at process start performs no delivery
and only seeds the snapshot with the fetched list when no previous snapshot
exists: part_002's `main(false)` never detects or sends and persists the
fetched list, and main.js's `runOnInit` cycle sends nothing and persists the
fetched list exactly when the data file is absent (on a restart with an
existing snapshot it behaves as an ordinary cycle and may deliver). -/
theorem immediate_run_first_run_spec (ok : Anime → Bool) (data : List Anime)
    (h : data ≠ []) :
    (P2.main false ok none data).1 = []
    ∧ (P2.main false ok none data).2 = some data
    ∧ (runCycle ok none data).attempted = []
    ∧ (runCycle ok none data).store = some data := by
  refine ⟨rfl, rfl, ?_, ?_⟩
  · rw [runCycle_attempted, checkAnimeUpdates_missing]
    rfl
  · rw [runCycle_store, checkAnimeUpdates_missing]
    cases data with
    | nil => exact absurd rfl h
    | cons d t => simp [sendRun, saveAnimeData]

/-- Witness for the amended C8: a concrete first run with no snapshot sends
nothing and seeds the file with the fetched list. -/
theorem immediate_run_first_run_spec_witness :
    (runCycle okT none [animeA]).attempted = []
    ∧ (runCycle okT none [animeA]).store = some [animeA] :=
  ⟨(immediate_run_first_run_spec okT [animeA] (by decide)).2.2.1,
    (immediate_run_first_run_spec okT [animeA] (by decide)).2.2.2⟩

/-- Claim C9: every in-cycle failure is caught at the boundary of the single
cycle invocation. In the model, `scheduleE` is the cycle body whose send and
persist failures surface as errors, and `schedule` is the try/catch around it:
an erroring cycle still returns normally with the file unchanged, and the cron
loop `runProcess` performs exactly one completed cycle per firing — one trace
entry per input, whatever failures are injected. -/
theorem schedule_runs_every_cycle (store : Option (List Anime)) (inps : List CycleInput) :
    (runProcess store inps).length = inps.length
    ∧ ∀ inp st e, scheduleE inp st = Except.error e → schedule inp st = st := by
  constructor
  · induction inps generalizing store with
    | nil => rfl
    | cons inp rest ih =>
      show (schedule inp store :: runProcess (schedule inp store) rest).length
        = rest.length + 1
      rw [List.length_cons, ih (schedule inp store)]
  · intro inp st e he
    show (match scheduleE inp st with
      | Except.ok s => s
      | Except.error _ => st) = st
    rw [he]

/-- Witness for C9: a concrete cycle whose send fails (so `scheduleE` errors)
still ends normally with the snapshot unchanged. -/
theorem schedule_runs_every_cycle_witness :
    schedule ⟨[animeA], okF, true⟩ (some [animeC]) = some [animeC] :=
  (schedule_runs_every_cycle none []).2 ⟨[animeA], okF, true⟩ (some [animeC])
    CycleError.sendErr rfl

/-- Unfolding equation of main.js `sendAnimeUpdates`. -/
theorem sendAnimeUpdates_eq (ok : Anime → Bool) (updates : List Anime) :
    sendAnimeUpdates ok updates =
      if (sendRun ok updates.reverse).2.2 then
        Except.error (sendRun ok updates.reverse).2.1
      else Except.ok (sendRun ok updates.reverse).2.1 := rfl

/-- Claim C10: in main.js, when a send fails mid-delivery, `sendAnimeUpdates`
throws after restoring the failed item (the thrown-at array's last entry is
the last attempted item), so `saveAnimeData` is never reached: the persisted
snapshot is left entirely unchanged, including for items already sent earlier
in the cycle; on the next cycle over the same fetched list the very same
updates (including the already-sent ones) are re-detected, and when the next
cycle's sends succeed they are all re-sent. -/
theorem send_failure_skips_save (ok ok2 : Anime → Bool) (store : Option (List Anime))
    (data : List Anime)
    (h : (sendRun ok (checkAnimeUpdates store data).reverse).2.2 = true) :
    (runCycle ok store data).store = store
    ∧ sendAnimeUpdates ok (checkAnimeUpdates store data) =
        Except.error (sendRun ok (checkAnimeUpdates store data).reverse).2.1
    ∧ (sendRun ok (checkAnimeUpdates store data).reverse).2.1.getLast? =
        (sendRun ok (checkAnimeUpdates store data).reverse).1.getLast?
    ∧ (runCycle ok2 store data).updates = (runCycle ok store data).updates
    ∧ ((∀ a ∈ checkAnimeUpdates store data, ok2 a = true) →
        (runCycle ok2 store data).attempted = (checkAnimeUpdates store data).reverse) := by
  obtain ⟨pre, X, post, e, hp, hX⟩ := sendRun_fail_parts ok _ h
  have hsr := sendRun_fail ok pre X post hp hX
  refine ⟨?_, ?_, ?_, ?_, ?_⟩
  · rw [runCycle_store, if_pos h]
  · rw [sendAnimeUpdates_eq, if_pos h]
  · rw [e, hsr]
    show ((X :: post).reverse).getLast? = (pre ++ [X]).getLast?
    rw [List.reverse_cons, List.getLast?_concat, List.getLast?_concat]
  · rw [runCycle_updates, runCycle_updates]
  · intro h2
    have hs2 := sendRun_all_ok ok2 (checkAnimeUpdates store data).reverse
      (fun a ha => h2 a (List.mem_reverse.mp ha))
    rw [runCycle_attempted, hs2]

/-- Witness for C10: a concrete cycle (snapshot [C], fetch [A], send of A
fails) leaves the snapshot unchanged. -/
theorem send_failure_skips_save_witness :
    (runCycle okF (some [animeC]) [animeA]).store = some [animeC] :=
  (send_failure_skips_save okF okT (some [animeC]) [animeA] (by decide)).1
